import Mathlib

/-!
Verification of the CMI-map computation script (main_compute_CMImap.py).

The development shallowly embeds the computation core of the script:

* signals (1-D numpy arrays of floats) become `Sig := List ℚ`;
* numpy float values become `NPFloat := Option ℚ`, where `none` models NaN
  (the value `np.mean` yields on an empty array);
* 2-D / 3-D numpy arrays become `Arr3`: explicit dimensions plus an entry
  function, with a flag remembering whether the array is 2-dimensional;
* the external pyclits estimators (module `mutual_inf`) become a `Backend`
  structure of abstract functions, since only their call pattern matters here;
* the external wavelet decomposition becomes a parameter
  `W : List ℚ → ℕ → Sig × Sig` mapping (data, period) to (phase, amplitude);
  calling `field.wavelet(period)` overwrites the phase and amplitude
  attributes of the `DataField` object in place, which the embedding models
  by explicit state passing;
* Python values handed to `ResultsContainer` become the `PyObj` universe;
* the multiprocessing job/result queues of `main` become a small transition
  system `PoolStep` over `PoolState`.
-/

/-- Signals: 1-D arrays of float samples.  Sample values are modelled as
rationals so that every definition stays executable. -/
abbrev Sig := List ℚ

/-- A numpy float: `none` models NaN, `some x` an ordinary float value. -/
abbrev NPFloat := Option ℚ

/-- Module-level constant NUM_BINS_EQQ = 4 of the script. -/
def NUM_BINS_EQQ : ℕ := 4

/-- Module-level constant K_KNN = 64 of the script. -/
def K_KNN : ℕ := 64

/-- Module-level constant NUM_SURROGATES = 100 of the script. -/
def NUM_SURROGATES : ℕ := 100

/-- Module-level constant WORKERS = 20 of the script. -/
def WORKERS : ℕ := 20

/-- A numpy array of at most three dimensions, as produced by the script:
`d1, d2, d3` are the extents, `isTwoD` records whether the array is
2-dimensional (then `d3 = 1` and the third index of `entry` is ignored). -/
structure Arr3 where
  d1 : ℕ
  d2 : ℕ
  d3 : ℕ
  isTwoD : Bool
  entry : ℕ → ℕ → ℕ → NPFloat

/-- The numpy shape tuple of an `Arr3`. -/
def Arr3.shape (a : Arr3) : List ℕ :=
  if a.isTwoD then [a.d1, a.d2] else [a.d1, a.d2, a.d3]

/-- Model of `np.zeros((n, m))`. -/
def np_zeros2 (n m : ℕ) : Arr3 :=
  ⟨n, m, 1, true, fun _ _ _ => some 0⟩

/-- Model of the 2-D array element assignment `a[i, j] = v`. -/
def Arr3.set2 (a : Arr3) (i j : ℕ) (v : NPFloat) : Arr3 :=
  { a with entry := fun x y z => if x = i ∧ y = j then v else a.entry x y z }

/-- Model of `np.dstack([a, b])`: both arrays are promoted to three dimensions
and concatenated along the third axis. -/
def np_dstack2 (a b : Arr3) : Arr3 :=
  ⟨a.d1, a.d2, a.d3 + b.d3, false,
    fun i j k => if k < a.d3 then a.entry i j k else b.entry i j (k - a.d3)⟩

/-- Model of `np.mean` on a 1-D array: NaN (here `none`) on the empty array,
otherwise the arithmetic mean. -/
def np_mean (l : List ℚ) : NPFloat :=
  if l = [] then none else some (l.sum / l.length)

/-- Model of `np.power(s, 2)` on a 1-D array. -/
def np_square (s : Sig) : Sig :=
  s.map (fun x => x ^ 2)

/-- The external measurement backend (pyclits module `mutual_inf`); the script
only depends on the call pattern of these five estimator functions, so they
are abstract here.  Argument order follows the pyclits signatures used by the
script: `mutual_information a b algorithm bins`,
`knn_mutual_information a b k dualtree`,
`get_time_series_condition [ts1, ts2] tau dim_condition eta phase_diff`,
`cond_mutual_information x y z algorithm bins`,
`knn_cond_mutual_information x y z k dualtree`. -/
structure Backend where
  mutual_information : Sig → Sig → String → ℕ → ℚ
  knn_mutual_information : Sig → Sig → ℕ → Bool → ℚ
  get_time_series_condition : List Sig → ℕ → ℕ → ℕ → Bool → Sig × Sig × Sig
  cond_mutual_information : Sig → Sig → Sig → String → ℕ → ℚ
  knn_cond_mutual_information : Sig → Sig → Sig → ℕ → Bool → ℚ

/-- Loop body of `compute_causality` for the bin estimator at one lag `tau`:
build the lagged triple (x, y, z) with `get_time_series_condition`, then the
binned conditional mutual information with NUM_BINS_EQQ bins. -/
def lag_value_eqq (B : Backend) (timeseries1 timeseries2 : Sig) (algorithm : String)
    (dim_condition eta : ℕ) (phase_diff : Bool) (tau : ℕ) : ℚ :=
  let xyz := B.get_time_series_condition [timeseries1, timeseries2] tau
    dim_condition eta phase_diff
  B.cond_mutual_information xyz.1 xyz.2.1 xyz.2.2 algorithm NUM_BINS_EQQ

/-- Loop body of `compute_causality` for the knn estimator at one lag `tau`:
same lagged triple, then `knn_cond_mutual_information` with `k = K_KNN` and
dual-tree acceleration. -/
def lag_value_knn (B : Backend) (timeseries1 timeseries2 : Sig)
    (dim_condition eta : ℕ) (phase_diff : Bool) (tau : ℕ) : ℚ :=
  let xyz := B.get_time_series_condition [timeseries1, timeseries2] tau
    dim_condition eta phase_diff
  B.knn_cond_mutual_information xyz.1 xyz.2.1 xyz.2.2 K_KNN true

/-- Embedding of `compute_causality`: for every `tau` in `range(1, tau_max)`
collect the two per-lag conditional informations, and return the `np.mean`
of each list.  `List.range' 1 (tau_max - 1)` is `[1, ..., tau_max - 1]`,
empty when `tau_max ≤ 1`, exactly like Python `range(1, tau_max)`. -/
def compute_causality (B : Backend) (timeseries1 timeseries2 : Sig)
    (tau_max : ℕ) (algorithm : String) (dim_condition : ℕ) (eta : ℕ)
    (phase_diff : Bool) : NPFloat × NPFloat :=
  let results_simple := (List.range' 1 (tau_max - 1)).map
    (lag_value_eqq B timeseries1 timeseries2 algorithm dim_condition eta phase_diff)
  let results_knn := (List.range' 1 (tau_max - 1)).map
    (lag_value_knn B timeseries1 timeseries2 dim_condition eta phase_diff)
  (np_mean results_simple, np_mean results_knn)

/-- A trivial concrete backend, used to instantiate universally quantified
theorems at a concrete input. -/
def B0 : Backend :=
  ⟨fun _ _ _ _ => 0, fun _ _ _ _ => 0, fun _ tau _ _ _ => ([(tau : ℚ)], [], []),
    fun x _ _ _ _ => x.headD 0, fun x _ _ _ _ => x.headD 0⟩

/-- A concrete backend whose per-lag conditional information equals the
smoothing parameter `eta` handed to `get_time_series_condition`; it makes the
computed causality value reveal which `eta` the caller passed. -/
def BEta : Backend :=
  ⟨fun _ _ _ _ => 0, fun _ _ _ _ => 0, fun _ _ _ eta _ => ([(eta : ℚ)], [], []),
    fun x _ _ _ _ => x.headD 0, fun x _ _ _ _ => x.headD 0⟩


/-- A pyclits DataField object, reduced to the attributes the script uses:
the sample values `data`, the timestamps `time`, and the `phase` and
`amplitude` attributes that `field.wavelet(...)` writes. -/
structure DataField where
  data : List ℚ
  time : List ℚ
  phase : Sig
  amplitude : Sig

/-- Type of the external wavelet decomposition: from (data, period) to the
(phase, amplitude) pair.  The decomposition itself lives in pyclits and is a
pure function of the series and the scale. -/
abbrev Wavelet := List ℚ → ℕ → Sig × Sig

/-- Embedding of `field.wavelet(period=scale, period_unit="m", cut=1)`:
the call recomputes the decomposition of `data` at the given period and
overwrites the `phase` and `amplitude` attributes of the field object. -/
def DataField.wavelet (W : Wavelet) (f : DataField) (period : ℕ) : DataField :=
  { f with phase := (W f.data period).1, amplitude := (W f.data period).2 }

/-- The eight output matrices of `compute_information_measures`: the four
measure dictionaries, each with its "eqq" and "knn" entry. -/
structure Mats where
  phase_phase_coherence_eqq : Arr3
  phase_phase_coherence_knn : Arr3
  phase_amp_mi_eqq : Arr3
  phase_amp_mi_knn : Arr3
  phase_phase_causality_eqq : Arr3
  phase_phase_causality_knn : Arr3
  phase_amp_causality_eqq : Arr3
  phase_amp_causality_knn : Arr3

/-- The initial matrices: `np.zeros((S, S))` for all four dictionaries and
both estimator keys. -/
def init_mats (S : ℕ) : Mats :=
  ⟨np_zeros2 S S, np_zeros2 S S, np_zeros2 S S, np_zeros2 S S,
    np_zeros2 S S, np_zeros2 S S, np_zeros2 S S, np_zeros2 S S⟩

/-- Selector for the eight matrices, in the order phase-phase coherence
(eqq, knn), phase-amplitude MI (eqq, knn), phase-phase causality (eqq, knn),
phase-amplitude causality (eqq, knn). -/
def Mats.get (M : Mats) : Fin 8 → Arr3 :=
  fun m => match m with
  | ⟨0, _⟩ => M.phase_phase_coherence_eqq
  | ⟨1, _⟩ => M.phase_phase_coherence_knn
  | ⟨2, _⟩ => M.phase_amp_mi_eqq
  | ⟨3, _⟩ => M.phase_amp_mi_knn
  | ⟨4, _⟩ => M.phase_phase_causality_eqq
  | ⟨5, _⟩ => M.phase_phase_causality_knn
  | ⟨6, _⟩ => M.phase_amp_causality_eqq
  | ⟨7, _⟩ => M.phase_amp_causality_knn

/-- Inner loop body of `compute_information_measures` for one grid cell:
given the outer phase `phase_i`, the outer scale `scale_i` and the inner
decomposition (`phase_j`, `amp_j`), write cell (i, j) of all eight matrices.
The smoothing parameter of the phase-amplitude causality is
`np.int(scale_i / 4)`; the script runs under Python 2 on integer scales, so
the division is integer floor division, modelled by `scale_i / 4` on ℕ. -/
def grid_cell_update (B : Backend) (M : Mats) (i j scale_i : ℕ)
    (phase_i phase_j amp_j : Sig) : Mats :=
  let ppcaus := compute_causality B phase_i phase_j 7 "EQQ2" 1 0 true
  let pacaus := compute_causality B phase_i (np_square amp_j) 7 "GCM" 3
    (scale_i / 4) false
  { phase_phase_coherence_eqq := M.phase_phase_coherence_eqq.set2 i j
      (some (B.mutual_information phase_i phase_j "EQQ2" NUM_BINS_EQQ))
    phase_phase_coherence_knn := M.phase_phase_coherence_knn.set2 i j
      (some (B.knn_mutual_information phase_i phase_j K_KNN true))
    phase_amp_mi_eqq := M.phase_amp_mi_eqq.set2 i j
      (some (B.mutual_information phase_i amp_j "EQQ2" NUM_BINS_EQQ))
    phase_amp_mi_knn := M.phase_amp_mi_knn.set2 i j
      (some (B.knn_mutual_information phase_i amp_j K_KNN true))
    phase_phase_causality_eqq := M.phase_phase_causality_eqq.set2 i j ppcaus.1
    phase_phase_causality_knn := M.phase_phase_causality_knn.set2 i j ppcaus.2
    phase_amp_causality_eqq := M.phase_amp_causality_eqq.set2 i j pacaus.1
    phase_amp_causality_knn := M.phase_amp_causality_knn.set2 i j pacaus.2 }

/-- The value written into cell (i, j) of matrix `m`, as a function of the
outer scale, the outer phase and the inner decomposition. -/
def cell_values (B : Backend) (scale_i : ℕ) (phase_i phase_j amp_j : Sig) :
    Fin 8 → NPFloat :=
  fun m => match m with
  | ⟨0, _⟩ => some (B.mutual_information phase_i phase_j "EQQ2" NUM_BINS_EQQ)
  | ⟨1, _⟩ => some (B.knn_mutual_information phase_i phase_j K_KNN true)
  | ⟨2, _⟩ => some (B.mutual_information phase_i amp_j "EQQ2" NUM_BINS_EQQ)
  | ⟨3, _⟩ => some (B.knn_mutual_information phase_i amp_j K_KNN true)
  | ⟨4, _⟩ => (compute_causality B phase_i phase_j 7 "EQQ2" 1 0 true).1
  | ⟨5, _⟩ => (compute_causality B phase_i phase_j 7 "EQQ2" 1 0 true).2
  | ⟨6, _⟩ => (compute_causality B phase_i (np_square amp_j) 7 "GCM" 3
      (scale_i / 4) false).1
  | ⟨7, _⟩ => (compute_causality B phase_i (np_square amp_j) 7 "GCM" 3
      (scale_i / 4) false).2

/-- Inner loop of `compute_information_measures`: iterate over the
enumerated scales `(j, scale_j)`, recompute the wavelet decomposition of the
field at `scale_j` (mutating the field object), and fill cell (i, j). -/
def inner_loop (B : Backend) (W : Wavelet) (phase_i : Sig) (scale_i i : ℕ) :
    List (ℕ × ℕ) → DataField × Mats → DataField × Mats
  | [], st => st
  | (j, scale_j) :: rest, st =>
    let fj := DataField.wavelet W st.1 scale_j
    inner_loop B W phase_i scale_i i rest
      (fj, grid_cell_update B st.2 i j scale_i phase_i fj.phase fj.amplitude)

/-- Outer loop of `compute_information_measures`: iterate over the
enumerated scales `(i, scale_i)`, decompose the field at `scale_i`, keep a
copy of its phase (the amplitude is discarded) and run the inner loop over
the full scale list. -/
def outer_loop (B : Backend) (W : Wavelet) (scales : List ℕ) :
    List (ℕ × ℕ) → DataField × Mats → DataField × Mats
  | [], st => st
  | (i, scale_i) :: rest, st =>
    let fi := DataField.wavelet W st.1 scale_i
    outer_loop B W scales rest
      (inner_loop B W fi.phase scale_i i scales.enum (fi, st.2))

/-- Embedding of `compute_information_measures(field, scales)`: the field
state threads through both nested loops; the matrices start as
`np.zeros((S, S))`.  The returned pair is (final field state, matrices). -/
def compute_information_measures (B : Backend) (W : Wavelet)
    (field : DataField) (scales : List ℕ) : DataField × Mats :=
  outer_loop B W scales scales.enum (field, init_mats scales.length)


/-- The Python value universe that flows into `ResultsContainer`: lists (and
tuples, which validate identically), dictionaries with string keys and
pairwise distinct keys, numpy arrays, integers and None. -/
inductive PyObj where
  | pyList : List PyObj → PyObj
  | pyDict : List (String × PyObj) → PyObj
  | pyArr : Arr3 → PyObj
  | pyInt : ℤ → PyObj
  | pyNone : PyObj

/-- Model of `isinstance(value, np.ndarray)`. -/
def is_np_array : PyObj → Bool
  | PyObj.pyArr _ => true
  | _ => false

/-- Per-entry check of `ResultsContainer.validate_single_result`: the entry
is a dict, has exactly 2 keys, and every value is an ndarray. -/
def valid_measure_dict : PyObj → Bool
  | PyObj.pyDict es => es.length == 2 && es.all (fun kv => is_np_array kv.2)
  | _ => false

/-- Embedding of `ResultsContainer.validate_single_result`: the chain of
assertions passes exactly when the result is a list (or tuple) of exactly 4
entries, each a dict with exactly 2 keys whose values are ndarrays. -/
def validate_single_result : PyObj → Bool
  | PyObj.pyList l => (l.length == 4) && l.all valid_measure_dict
  | _ => false

/-- A constructed ResultsContainer object: the stored results and the
surrogates flag.  A value of this type exists only after the constructor
assertions all passed. -/
structure ResultsContainerS where
  results : PyObj
  surrogates : Bool

/-- Embedding of the `ResultsContainer.__init__` constructor: `none` models a
raised AssertionError (or TypeError for a non-iterable ensemble argument);
on failure no container exists, so nothing can be saved. -/
def ResultsContainer_init (results : PyObj) (surrogates : Bool) :
    Option ResultsContainerS :=
  if surrogates = false then
    if validate_single_result results then some ⟨results, surrogates⟩ else none
  else
    match results with
    | PyObj.pyList l =>
      if l.all validate_single_result then some ⟨results, surrogates⟩ else none
    | _ => none

/-- The class attribute RESULT_ORDER of ResultsContainer. -/
def RESULT_ORDER : List String := ["ph_ph_mi", "ph_amp_mi", "ph_ph_caus", "ph_amp_caus"]

/-- Plain dictionary assignment `d[k] = v` on an association list. -/
def dict_set : List (String × Arr3) → String → Arr3 → List (String × Arr3)
  | [], k, v => [(k, v)]
  | (k0, v0) :: rest, k, v =>
    if k0 = k then (k0, v) :: rest else (k0, v0) :: dict_set rest k v

/-- The ensemble update of `ResultsContainer.save`: if `k` is already
present, replace its value by `np.dstack([old, v])`, otherwise insert `v`. -/
def stack_into : List (String × Arr3) → String → Arr3 → List (String × Arr3)
  | [], k, v => [(k, v)]
  | (k0, v0) :: rest, k, v =>
    if k0 = k then (k0, np_dstack2 v0 v) :: rest
    else (k0, v0) :: stack_into rest k v

/-- The non-ensemble branch of `ResultsContainer.save`: zip RESULT_ORDER with
the four measure dicts and store every array under the key
`measure-name_estimator-name`.  Values that are not arrays cannot occur in a
validated container; they are skipped. -/
def save_single (results : PyObj) : List (String × Arr3) :=
  match results with
  | PyObj.pyList items =>
    (RESULT_ORDER.zip items).foldl (fun acc p =>
      match p.2 with
      | PyObj.pyDict es => es.foldl (fun acc2 kv =>
          match kv.2 with
          | PyObj.pyArr a => dict_set acc2 (p.1 ++ "_" ++ kv.1) a
          | _ => acc2) acc
      | _ => acc) []
  | _ => []

/-- One iteration of the ensemble branch of `ResultsContainer.save`: fold the
eight keyed arrays of one bundle into the saving dict, stacking onto any
array already present under the same key. -/
def save_bundle_stack (d : List (String × Arr3)) (bundle : PyObj) :
    List (String × Arr3) :=
  match bundle with
  | PyObj.pyList items =>
    (RESULT_ORDER.zip items).foldl (fun acc p =>
      match p.2 with
      | PyObj.pyDict es => es.foldl (fun acc2 kv =>
          match kv.2 with
          | PyObj.pyArr a => stack_into acc2 (p.1 ++ "_" ++ kv.1) a
          | _ => acc2) acc
      | _ => acc) d
  | _ => d

/-- Embedding of `ResultsContainer.save`: build the saving dict (the mapping
that is then pickled to disk; the pickling side effect is out of scope). -/
def ResultsContainer_save (c : ResultsContainerS) : List (String × Arr3) :=
  if c.surrogates = false then
    save_single c.results
  else
    match c.results with
    | PyObj.pyList bundles => bundles.foldl save_bundle_stack []
    | _ => []

/-- The estimator key of column e: "eqq" for 0, "knn" for 1. -/
def estimator_key : Fin 2 → String :=
  fun e => if e = 0 then "eqq" else "knn"

/-- The full saving-dict key for measure m and estimator e. -/
def full_key (m : Fin 4) (e : Fin 2) : String :=
  RESULT_ORDER.getD (m : ℕ) "" ++ "_" ++ estimator_key e

/-- Combine an optional existing dict value with a new array the way the
ensemble branch of save does. -/
def optStack : Option Arr3 → Arr3 → Arr3
  | some w, v => np_dstack2 w v
  | none, v => v

/-- The iterated dstack of arrays f 0, ..., f n in order. -/
def stacked (f : ℕ → Arr3) : ℕ → Arr3
  | 0 => f 0
  | n + 1 => np_dstack2 (stacked f n) (f (n + 1))

/-- A measurement bundle with given keys per measure dict: a list of 4 dicts,
each mapping the two keys to arrays. -/
def mk_bundle_keys (k1 k2 : String) (a : Fin 4 → Fin 2 → Arr3) : PyObj :=
  PyObj.pyList
    [PyObj.pyDict [(k1, PyObj.pyArr (a 0 0)), (k2, PyObj.pyArr (a 0 1))],
     PyObj.pyDict [(k1, PyObj.pyArr (a 1 0)), (k2, PyObj.pyArr (a 1 1))],
     PyObj.pyDict [(k1, PyObj.pyArr (a 2 0)), (k2, PyObj.pyArr (a 2 1))],
     PyObj.pyDict [(k1, PyObj.pyArr (a 3 0)), (k2, PyObj.pyArr (a 3 1))]]

/-- A measurement bundle with the estimator keys the script produces. -/
def mk_bundle (a : Fin 4 → Fin 2 → Arr3) : PyObj :=
  mk_bundle_keys "eqq" "knn" a

/-- The tuple returned by `compute_information_measures`, as the Python value
handed to ResultsContainer: the four measure dicts in RESULT_ORDER order,
each with its "eqq" and "knn" arrays. -/
def measures_bundle (M : Mats) : PyObj :=
  PyObj.pyList
    [PyObj.pyDict [("eqq", PyObj.pyArr M.phase_phase_coherence_eqq),
                   ("knn", PyObj.pyArr M.phase_phase_coherence_knn)],
     PyObj.pyDict [("eqq", PyObj.pyArr M.phase_amp_mi_eqq),
                   ("knn", PyObj.pyArr M.phase_amp_mi_knn)],
     PyObj.pyDict [("eqq", PyObj.pyArr M.phase_phase_causality_eqq),
                   ("knn", PyObj.pyArr M.phase_phase_causality_knn)],
     PyObj.pyDict [("eqq", PyObj.pyArr M.phase_amp_causality_eqq),
                   ("knn", PyObj.pyArr M.phase_amp_causality_knn)]]

/-- Tokens of the multiprocessing job queue of `main`: the integer 1 put for
each surrogate job, and None as the poison pill. -/
inductive QToken where
  | job : QToken
  | pill : QToken
deriving DecidableEq

/-- State of the surrogate coordination protocol: the job queue contents, the
liveness of each of the Wn workers, and the number of result bundles pushed
onto the result queue so far. -/
structure PoolState (Wn : ℕ) where
  jobq : List QToken
  active : Fin Wn → Bool
  resq : ℕ

/-- Model of `queue.put(t)` on a FIFO queue represented with its head at the
front. -/
def put_token (q : List QToken) (t : QToken) : List QToken := q ++ [t]

/-- The queue pre-loading loops of `main`: N job tokens, then Wn pills. -/
def load_queue (N Wn : ℕ) : List QToken :=
  (List.range Wn).foldl (fun q _ => put_token q QToken.pill)
    ((List.range N).foldl (fun q _ => put_token q QToken.job) [])

/-- Initial coordinator state: the pre-loaded queue, all workers active, no
results yet. -/
def init_state (N Wn : ℕ) : PoolState Wn :=
  ⟨load_queue N Wn, fun _ => true, 0⟩

/-- One scheduling step of the `_process_surrogates` worker loop: an active
worker takes the queue head; a job token makes it compute one surrogate
bundle and push it onto the result queue; a pill makes it break out of its
loop and terminate.  The surrogate computation itself is irrelevant to the
cardinality protocol and is abstracted to the resq counter. -/
inductive PoolStep {Wn : ℕ} : PoolState Wn → PoolState Wn → Prop where
  | job (s : PoolState Wn) (w : Fin Wn) (rest : List QToken) :
      s.active w = true → s.jobq = QToken.job :: rest →
      PoolStep s ⟨rest, s.active, s.resq + 1⟩
  | pill (s : PoolState Wn) (w : Fin Wn) (rest : List QToken) :
      s.active w = true → s.jobq = QToken.pill :: rest →
      PoolStep s ⟨rest, Function.update s.active w false, s.resq⟩

/-- Reachability under worker scheduling steps. -/
def PoolReachable {Wn : ℕ} : PoolState Wn → PoolState Wn → Prop :=
  Relation.ReflTransGen PoolStep

/-- Number of workers still running. -/
def num_active {Wn : ℕ} (s : PoolState Wn) : ℕ :=
  (Finset.univ.filter (fun w => s.active w = true)).card

/-- The coordination invariant: the queue is j jobs followed by exactly one
pill per live worker, and the produced results account for the missing
jobs; moreover a pill can only have been consumed after the jobs ran out. -/
def PoolInv (N Wn : ℕ) (s : PoolState Wn) : Prop :=
  ∃ j, s.jobq = List.replicate j QToken.job ++
      List.replicate (num_active s) QToken.pill ∧
    s.resq + j = N ∧ (j = 0 ∨ num_active s = Wn)

/-- A concrete wavelet decomposition for witnesses: phase and amplitude are
the one-sample signal holding the scale. -/
def W0 : Wavelet := fun _ scale => ([(scale : ℚ)], [(scale : ℚ)])

/-- A concrete field object for witnesses, with empty data and attributes. -/
def f0 : DataField := ⟨[], [], [], []⟩

/-- Definition following the words of the spec sentence for claim C3: the
smoothing parameter as the ROUNDED quotient scale/4 (the code instead floors
it, because `np.int(scale_i / 4)` under Python 2 integer division floors). -/
def round_div4 (scale : ℕ) : ℕ := (round ((scale : ℚ) / 4)).toNat

/-- A concrete 2-D test array of the given extents, filled with zeros. -/
def test_arr (n m : ℕ) : Arr3 := ⟨n, m, 1, true, fun _ _ _ => some 0⟩

theorem np_mean_nil : np_mean [] = none := rfl

theorem np_mean_ne_nil (l : List ℚ) (h : l ≠ []) :
    np_mean l = some (l.sum / l.length) := by
  simp [np_mean, h]

/-- CLAIM C2: for every two input signals and every max_lag k greater than 1,
compute_causality returns, for each estimator family, exactly the arithmetic
mean of the (k - 1) per-lag conditional-information values at lags 1 through
k - 1 inclusive; for max_lag = 2 it returns exactly the single lag-1 value. -/
theorem claim_C2_causality_avg (B : Backend) (t1 t2 : Sig) (tau_max : ℕ)
    (algorithm : String) (dim_condition eta : ℕ) (phase_diff : Bool)
    (hk : 2 ≤ tau_max) :
    compute_causality B t1 t2 tau_max algorithm dim_condition eta phase_diff =
      (some ((((List.range' 1 (tau_max - 1)).map
          (lag_value_eqq B t1 t2 algorithm dim_condition eta phase_diff)).sum) /
          ((tau_max - 1 : ℕ) : ℚ)),
       some ((((List.range' 1 (tau_max - 1)).map
          (lag_value_knn B t1 t2 dim_condition eta phase_diff)).sum) /
          ((tau_max - 1 : ℕ) : ℚ))) ∧
    (tau_max = 2 →
      compute_causality B t1 t2 tau_max algorithm dim_condition eta phase_diff =
        (some (lag_value_eqq B t1 t2 algorithm dim_condition eta phase_diff 1),
         some (lag_value_knn B t1 t2 dim_condition eta phase_diff 1))) := by
  have hne : List.range' 1 (tau_max - 1) ≠ [] := by
    intro h
    have hlen := congrArg List.length h
    simp [List.length_range'] at hlen
    omega
  have h1 : (List.range' 1 (tau_max - 1)).map
      (lag_value_eqq B t1 t2 algorithm dim_condition eta phase_diff) ≠ [] := by
    simpa using hne
  have h2 : (List.range' 1 (tau_max - 1)).map
      (lag_value_knn B t1 t2 dim_condition eta phase_diff) ≠ [] := by
    simpa using hne
  refine ⟨?_, ?_⟩
  · simp only [compute_causality, np_mean_ne_nil _ h1, np_mean_ne_nil _ h2,
      List.length_map, List.length_range']
  · rintro rfl
    simp [compute_causality, List.range'_one, np_mean]

/-- Witness for claim C2 at tau_max = 3 with the concrete backend B0. -/
theorem claim_C2_causality_avg_witness :
    compute_causality B0 [] [] 3 "EQQ2" 1 0 true =
      (some ((((List.range' 1 (3 - 1)).map
          (lag_value_eqq B0 [] [] "EQQ2" 1 0 true)).sum) / ((3 - 1 : ℕ) : ℚ)),
       some ((((List.range' 1 (3 - 1)).map
          (lag_value_knn B0 [] [] 1 0 true)).sum) / ((3 - 1 : ℕ) : ℚ))) ∧
    (3 = 2 →
      compute_causality B0 [] [] 3 "EQQ2" 1 0 true =
        (some (lag_value_eqq B0 [] [] "EQQ2" 1 0 true 1),
         some (lag_value_knn B0 [] [] 1 0 true 1))) :=
  claim_C2_causality_avg B0 [] [] 3 "EQQ2" 1 0 true (by norm_num)

/-- CLAIM C8: calling compute_causality with max_lag at most 1 leaves the lag
range empty, so both estimator results are the undefined mean (NaN, modelled
as none); in particular the function does not silently return zero. -/
theorem claim_C8_empty_lag_range (B : Backend) (t1 t2 : Sig) (tau_max : ℕ)
    (algorithm : String) (dim_condition eta : ℕ) (phase_diff : Bool)
    (hk : tau_max ≤ 1) :
    compute_causality B t1 t2 tau_max algorithm dim_condition eta phase_diff =
      (none, none) ∧
    compute_causality B t1 t2 tau_max algorithm dim_condition eta phase_diff ≠
      (some 0, some 0) := by
  have h0 : tau_max - 1 = 0 := by omega
  constructor
  · simp [compute_causality, h0, np_mean]
  · simp [compute_causality, h0, np_mean]

/-- Witness for claim C8 at tau_max = 1 with the concrete backend B0. -/
theorem claim_C8_empty_lag_range_witness :
    compute_causality B0 [] [] 1 "EQQ2" 1 0 true = (none, none) ∧
    compute_causality B0 [] [] 1 "EQQ2" 1 0 true ≠ (some 0, some 0) :=
  claim_C8_empty_lag_range B0 [] [] 1 "EQQ2" 1 0 true (by norm_num)

theorem Arr3.set2_entry (a : Arr3) (i j : ℕ) (v : NPFloat) (x y z : ℕ) :
    (a.set2 i j v).entry x y z = if x = i ∧ y = j then v else a.entry x y z := rfl

theorem grid_cell_update_get (B : Backend) (M : Mats) (i j scale_i : ℕ)
    (phase_i phase_j amp_j : Sig) (m : Fin 8) :
    (grid_cell_update B M i j scale_i phase_i phase_j amp_j).get m =
      (M.get m).set2 i j (cell_values B scale_i phase_i phase_j amp_j m) := by
  fin_cases m <;> rfl

theorem lookup_cons_nat (y j s : ℕ) (l : List (ℕ × ℕ)) :
    List.lookup y ((j, s) :: l) = if y = j then some s else List.lookup y l := by
  rw [List.lookup_cons]
  by_cases h : y = j
  · have hb : (y == j) = true := beq_iff_eq.mpr h
    rw [hb]
    simp [h]
  · have hb : (y == j) = false := beq_eq_false_iff_ne.mpr h
    rw [hb]
    simp [h]

theorem lookup_eq_none_nat (y : ℕ) (l : List (ℕ × ℕ))
    (h : y ∉ l.map Prod.fst) : List.lookup y l = none := by
  induction l with
  | nil => rfl
  | cons q rest ih =>
    obtain ⟨k, v⟩ := q
    simp only [List.map_cons, List.mem_cons, not_or] at h
    rw [lookup_cons_nat]
    simp only [h.1, if_false]
    exact ih h.2

theorem inner_loop_field (B : Backend) (W : Wavelet) (phase_i : Sig)
    (scale_i i : ℕ) (l : List (ℕ × ℕ)) (st : DataField × Mats) :
    (inner_loop B W phase_i scale_i i l st).1.data = st.1.data ∧
    (inner_loop B W phase_i scale_i i l st).1.time = st.1.time := by
  induction l generalizing st with
  | nil => exact ⟨rfl, rfl⟩
  | cons q rest ih =>
    obtain ⟨j, scale_j⟩ := q
    simpa [inner_loop, DataField.wavelet] using ih _

theorem inner_loop_get (B : Backend) (W : Wavelet) (p : Sig) (si i : ℕ)
    (l : List (ℕ × ℕ)) (hn : (l.map Prod.fst).Nodup) (f : DataField) (M : Mats)
    (x y z : ℕ) (m : Fin 8) :
    ((inner_loop B W p si i l (f, M)).2.get m).entry x y z =
      match (if x = i then List.lookup y l else none) with
      | some s => cell_values B si p ((W f.data s).1) ((W f.data s).2) m
      | none => (M.get m).entry x y z := by
  induction l generalizing f M with
  | nil => by_cases hx : x = i <;> simp [inner_loop, hx]
  | cons q rest ih =>
    obtain ⟨j0, s0⟩ := q
    simp only [List.map_cons, List.nodup_cons] at hn
    have hstep : (inner_loop B W p si i ((j0, s0) :: rest) (f, M)) =
        inner_loop B W p si i rest
          (DataField.wavelet W f s0,
           grid_cell_update B M i j0 si p ((W f.data s0).1) ((W f.data s0).2)) := rfl
    rw [hstep, ih hn.2, lookup_cons_nat]
    by_cases hx : x = i
    · by_cases hy : y = j0
      · have hnone : List.lookup j0 rest = none := lookup_eq_none_nat j0 rest hn.1
        simp [hx, hy, hnone, grid_cell_update_get, Arr3.set2_entry,
          DataField.wavelet]
      · cases hl : List.lookup y rest with
        | some s =>
          simp [hx, hy, hl, grid_cell_update_get, Arr3.set2_entry,
            DataField.wavelet]
        | none =>
          simp [hx, hy, hl, grid_cell_update_get, Arr3.set2_entry,
            DataField.wavelet]
    · cases hl : List.lookup y rest with
      | some s =>
        simp [hx, hl, grid_cell_update_get, Arr3.set2_entry,
          DataField.wavelet]
      | none =>
        simp [hx, hl, grid_cell_update_get, Arr3.set2_entry,
          DataField.wavelet]

theorem outer_loop_field (B : Backend) (W : Wavelet) (scales : List ℕ)
    (lo : List (ℕ × ℕ)) (st : DataField × Mats) :
    (outer_loop B W scales lo st).1.data = st.1.data ∧
    (outer_loop B W scales lo st).1.time = st.1.time := by
  induction lo generalizing st with
  | nil => exact ⟨rfl, rfl⟩
  | cons q rest ih =>
    obtain ⟨i, scale_i⟩ := q
    have h1 := ih (inner_loop B W (DataField.wavelet W st.1 scale_i).phase
      scale_i i scales.enum (DataField.wavelet W st.1 scale_i, st.2))
    have h2 := inner_loop_field B W (DataField.wavelet W st.1 scale_i).phase
      scale_i i scales.enum (DataField.wavelet W st.1 scale_i, st.2)
    refine ⟨?_, ?_⟩
    · rw [show (outer_loop B W scales ((i, scale_i) :: rest) st) =
        outer_loop B W scales rest (inner_loop B W
          (DataField.wavelet W st.1 scale_i).phase scale_i i scales.enum
          (DataField.wavelet W st.1 scale_i, st.2)) from rfl]
      rw [h1.1, h2.1]
      rfl
    · rw [show (outer_loop B W scales ((i, scale_i) :: rest) st) =
        outer_loop B W scales rest (inner_loop B W
          (DataField.wavelet W st.1 scale_i).phase scale_i i scales.enum
          (DataField.wavelet W st.1 scale_i, st.2)) from rfl]
      rw [h1.2, h2.2]
      rfl

theorem outer_loop_get (B : Backend) (W : Wavelet) (scales : List ℕ)
    (lo : List (ℕ × ℕ)) (hn : (lo.map Prod.fst).Nodup) (f : DataField)
    (M : Mats) (x y z : ℕ) (m : Fin 8) :
    ((outer_loop B W scales lo (f, M)).2.get m).entry x y z =
      match List.lookup x lo with
      | some si =>
        (match List.lookup y scales.enum with
         | some sy => cell_values B si ((W f.data si).1) ((W f.data sy).1)
             ((W f.data sy).2) m
         | none => (M.get m).entry x y z)
      | none => (M.get m).entry x y z := by
  induction lo generalizing f M with
  | nil => simp [outer_loop]
  | cons q rest ih =>
    obtain ⟨i0, si0⟩ := q
    simp only [List.map_cons, List.nodup_cons] at hn
    have hstep : (outer_loop B W scales ((i0, si0) :: rest) (f, M)) =
        outer_loop B W scales rest
          (inner_loop B W (DataField.wavelet W f si0).phase si0 i0 scales.enum
            (DataField.wavelet W f si0, M)) := rfl
    have hpair : (inner_loop B W (DataField.wavelet W f si0).phase si0 i0
        scales.enum (DataField.wavelet W f si0, M)) =
        ((inner_loop B W (DataField.wavelet W f si0).phase si0 i0 scales.enum
          (DataField.wavelet W f si0, M)).1,
         (inner_loop B W (DataField.wavelet W f si0).phase si0 i0 scales.enum
          (DataField.wavelet W f si0, M)).2) := rfl
    have hdata : (inner_loop B W (DataField.wavelet W f si0).phase si0 i0
        scales.enum (DataField.wavelet W f si0, M)).1.data = f.data := by
      have := inner_loop_field B W (DataField.wavelet W f si0).phase si0 i0
        scales.enum (DataField.wavelet W f si0, M)
      simpa [DataField.wavelet] using this.1
    have hinner := inner_loop_get B W (DataField.wavelet W f si0).phase si0 i0
      scales.enum (List.nodup_enum_map_fst scales) (DataField.wavelet W f si0)
      M x y z m
    rw [hstep, hpair, ih hn.2, lookup_cons_nat, hdata]
    by_cases hx : x = i0
    · rw [hx] at hinner ⊢
      have hnone : List.lookup i0 rest = none := lookup_eq_none_nat i0 rest hn.1
      rw [hnone, hinner]
      cases hl : List.lookup y scales.enum with
      | some sy => simp [hl, DataField.wavelet]
      | none => simp [hl, DataField.wavelet]
    · have hif : (if x = i0 then some si0 else List.lookup x rest) =
          List.lookup x rest := if_neg hx
      rw [hif]
      cases hr : List.lookup x rest with
      | some si =>
        cases hl : List.lookup y scales.enum with
        | some sy => simp [hl]
        | none => simp [hl, hinner, hx]
      | none => simp [hinner, hx]

theorem lookup_enumFrom (l : List ℕ) : ∀ (n i : ℕ), i < l.length →
    List.lookup (n + i) (List.enumFrom n l) = some (l.getD i 0) := by
  induction l with
  | nil =>
    intro n i h
    simp at h
  | cons a t ih =>
    intro n i h
    cases i with
    | zero =>
      simp only [List.enumFrom, Nat.add_zero, List.getD_cons_zero]
      rw [lookup_cons_nat]
      simp
    | succ i =>
      have hne : n + (i + 1) ≠ n := by omega
      simp only [List.enumFrom, List.getD_cons_succ]
      rw [lookup_cons_nat, if_neg hne]
      have := ih (n + 1) i (by simpa using h)
      rw [show n + 1 + i = n + (i + 1) by omega] at this
      exact this

theorem lookup_enum (l : List ℕ) (i : ℕ) (h : i < l.length) :
    List.lookup i l.enum = some (l.getD i 0) := by
  have := lookup_enumFrom l 0 i h
  simpa [List.enum] using this

theorem cim_cell (B : Backend) (W : Wavelet) (f : DataField) (scales : List ℕ)
    (m : Fin 8) (i j z : ℕ) (hi : i < scales.length) (hj : j < scales.length) :
    (((compute_information_measures B W f scales).2).get m).entry i j z =
      cell_values B (scales.getD i 0) ((W f.data (scales.getD i 0)).1)
        ((W f.data (scales.getD j 0)).1) ((W f.data (scales.getD j 0)).2) m := by
  unfold compute_information_measures
  rw [outer_loop_get B W scales scales.enum (List.nodup_enum_map_fst scales) f
    (init_mats scales.length) i j z m]
  rw [lookup_enum scales i hi, lookup_enum scales j hj]

theorem grid_cell_update_dims (B : Backend) (M : Mats) (i j scale_i : ℕ)
    (phase_i phase_j amp_j : Sig) (m : Fin 8) :
    ((grid_cell_update B M i j scale_i phase_i phase_j amp_j).get m).d1 =
      (M.get m).d1 ∧
    ((grid_cell_update B M i j scale_i phase_i phase_j amp_j).get m).d2 =
      (M.get m).d2 ∧
    ((grid_cell_update B M i j scale_i phase_i phase_j amp_j).get m).d3 =
      (M.get m).d3 ∧
    ((grid_cell_update B M i j scale_i phase_i phase_j amp_j).get m).isTwoD =
      (M.get m).isTwoD := by
  fin_cases m <;> exact ⟨rfl, rfl, rfl, rfl⟩

theorem inner_loop_dims (B : Backend) (W : Wavelet) (p : Sig) (si i : ℕ)
    (l : List (ℕ × ℕ)) (st : DataField × Mats) (m : Fin 8) :
    ((inner_loop B W p si i l st).2.get m).d1 = (st.2.get m).d1 ∧
    ((inner_loop B W p si i l st).2.get m).d2 = (st.2.get m).d2 ∧
    ((inner_loop B W p si i l st).2.get m).d3 = (st.2.get m).d3 ∧
    ((inner_loop B W p si i l st).2.get m).isTwoD = (st.2.get m).isTwoD := by
  induction l generalizing st with
  | nil => exact ⟨rfl, rfl, rfl, rfl⟩
  | cons q rest ih =>
    obtain ⟨j, sj⟩ := q
    obtain ⟨h1, h2, h3, h4⟩ := ih ((DataField.wavelet W st.1 sj),
      grid_cell_update B st.2 i j si p
        ((DataField.wavelet W st.1 sj).phase)
        ((DataField.wavelet W st.1 sj).amplitude))
    obtain ⟨g1, g2, g3, g4⟩ := grid_cell_update_dims B st.2 i j si p
      ((DataField.wavelet W st.1 sj).phase)
      ((DataField.wavelet W st.1 sj).amplitude) m
    exact ⟨h1.trans g1, h2.trans g2, h3.trans g3, h4.trans g4⟩

theorem outer_loop_dims (B : Backend) (W : Wavelet) (scales : List ℕ)
    (lo : List (ℕ × ℕ)) (st : DataField × Mats) (m : Fin 8) :
    ((outer_loop B W scales lo st).2.get m).d1 = (st.2.get m).d1 ∧
    ((outer_loop B W scales lo st).2.get m).d2 = (st.2.get m).d2 ∧
    ((outer_loop B W scales lo st).2.get m).d3 = (st.2.get m).d3 ∧
    ((outer_loop B W scales lo st).2.get m).isTwoD = (st.2.get m).isTwoD := by
  induction lo generalizing st with
  | nil => exact ⟨rfl, rfl, rfl, rfl⟩
  | cons q rest ih =>
    obtain ⟨i, si⟩ := q
    have h1 := ih (inner_loop B W (DataField.wavelet W st.1 si).phase si i
      scales.enum (DataField.wavelet W st.1 si, st.2))
    have h2 := inner_loop_dims B W (DataField.wavelet W st.1 si).phase si i
      scales.enum (DataField.wavelet W st.1 si, st.2) m
    have hstep : (outer_loop B W scales ((i, si) :: rest) st) =
        outer_loop B W scales rest
          (inner_loop B W (DataField.wavelet W st.1 si).phase si i scales.enum
            (DataField.wavelet W st.1 si, st.2)) := rfl
    rw [hstep]
    exact ⟨h1.1.trans h2.1, h1.2.1.trans h2.2.1, h1.2.2.1.trans h2.2.2.1,
      h1.2.2.2.trans h2.2.2.2⟩

theorem init_mats_get (S : ℕ) (m : Fin 8) :
    (init_mats S).get m = np_zeros2 S S := by
  fin_cases m <;> rfl

theorem cim_shape (B : Backend) (W : Wavelet) (f : DataField)
    (scales : List ℕ) (m : Fin 8) :
    (((compute_information_measures B W f scales).2).get m).shape =
      [scales.length, scales.length] := by
  have h := outer_loop_dims B W scales scales.enum
    (f, init_mats scales.length) m
  rw [init_mats_get] at h
  unfold compute_information_measures Arr3.shape
  rw [h.1, h.2.1, h.2.2.2]
  simp [np_zeros2]

/-- CLAIM C1: one call of compute_information_measures on a ScaleGrid of size
S returns exactly 4 measure sets, each a dict with exactly the two estimator
entries "eqq" and "knn", and all 8 matrices have shape (S, S). -/
theorem claim_C1_bundle_shape (B : Backend) (W : Wavelet) (f : DataField)
    (scales : List ℕ) :
    ∃ l, measures_bundle (compute_information_measures B W f scales).2 =
        PyObj.pyList l ∧ l.length = 4 ∧
      ∀ d ∈ l, ∃ es, d = PyObj.pyDict es ∧
        es.map Prod.fst = ["eqq", "knn"] ∧
        ∀ kv ∈ es, ∃ a, kv.2 = PyObj.pyArr a ∧
          a.shape = [scales.length, scales.length] := by
  refine ⟨_, rfl, rfl, ?_⟩
  intro d hd
  simp only [List.mem_cons, List.not_mem_nil, or_false] at hd
  rcases hd with rfl | rfl | rfl | rfl
  · refine ⟨_, rfl, rfl, ?_⟩
    intro kv hkv
    simp only [List.mem_cons, List.not_mem_nil, or_false] at hkv
    rcases hkv with rfl | rfl
    · exact ⟨_, rfl, cim_shape B W f scales 0⟩
    · exact ⟨_, rfl, cim_shape B W f scales 1⟩
  · refine ⟨_, rfl, rfl, ?_⟩
    intro kv hkv
    simp only [List.mem_cons, List.not_mem_nil, or_false] at hkv
    rcases hkv with rfl | rfl
    · exact ⟨_, rfl, cim_shape B W f scales 2⟩
    · exact ⟨_, rfl, cim_shape B W f scales 3⟩
  · refine ⟨_, rfl, rfl, ?_⟩
    intro kv hkv
    simp only [List.mem_cons, List.not_mem_nil, or_false] at hkv
    rcases hkv with rfl | rfl
    · exact ⟨_, rfl, cim_shape B W f scales 4⟩
    · exact ⟨_, rfl, cim_shape B W f scales 5⟩
  · refine ⟨_, rfl, rfl, ?_⟩
    intro kv hkv
    simp only [List.mem_cons, List.not_mem_nil, or_false] at hkv
    rcases hkv with rfl | rfl
    · exact ⟨_, rfl, cim_shape B W f scales 6⟩
    · exact ⟨_, rfl, cim_shape B W f scales 7⟩

/-- CLAIM C4: the grid engine evaluates every ordered pair (scale_i, scale_j)
of the full S-by-S grid, and cell (i, j) of each of the 8 output matrices is
a function of the phase of the decomposition at scales[i] (amplitude
discarded) and the phase and amplitude of the decomposition at scales[j]. -/
theorem claim_C4_full_grid (B : Backend) (W : Wavelet) (f : DataField)
    (scales : List ℕ) (m : Fin 8) (i j z : ℕ)
    (hi : i < scales.length) (hj : j < scales.length) :
    (((compute_information_measures B W f scales).2).get m).entry i j z =
      cell_values B (scales.getD i 0) ((W f.data (scales.getD i 0)).1)
        ((W f.data (scales.getD j 0)).1) ((W f.data (scales.getD j 0)).2) m :=
  cim_cell B W f scales m i j z hi hj

/-- Witness for claim C4 at a concrete grid of two scales, cell (0, 1) of
the phase-amplitude causality eqq matrix. -/
theorem claim_C4_full_grid_witness :
    (0 : ℕ) < ([5, 7] : List ℕ).length ∧ (1 : ℕ) < ([5, 7] : List ℕ).length ∧
    (((compute_information_measures B0 W0 f0 [5, 7]).2).get 6).entry 0 1 0 =
      cell_values B0 (([5, 7] : List ℕ).getD 0 0)
        ((W0 f0.data (([5, 7] : List ℕ).getD 0 0)).1)
        ((W0 f0.data (([5, 7] : List ℕ).getD 1 0)).1)
        ((W0 f0.data (([5, 7] : List ℕ).getD 1 0)).2) 6 :=
  ⟨by norm_num, by norm_num,
    claim_C4_full_grid B0 W0 f0 [5, 7] 6 0 1 0 (by norm_num) (by norm_num)⟩

/-- CLAIM C3 (amended): cell (i, j) of the phase-amplitude causality
matrices is the Causality Averager applied to phase_i and the square of
amp_j with max_lag 7, the GCM estimator, conditioning dimension 3, the
phase-difference transform disabled, and smoothing parameter equal to the
FLOOR of scales[i] / 4 (Python 2 integer division), not the rounded
quotient claimed by the spec. -/
theorem claim_C3_amended_floor_smoothing (B : Backend) (W : Wavelet)
    (f : DataField) (scales : List ℕ) (i j z : ℕ)
    (hi : i < scales.length) (hj : j < scales.length) :
    (((compute_information_measures B W f scales).2).get 6).entry i j z =
      (compute_causality B ((W f.data (scales.getD i 0)).1)
        (np_square (W f.data (scales.getD j 0)).2) 7 "GCM" 3
        (scales.getD i 0 / 4) false).1 ∧
    (((compute_information_measures B W f scales).2).get 7).entry i j z =
      (compute_causality B ((W f.data (scales.getD i 0)).1)
        (np_square (W f.data (scales.getD j 0)).2) 7 "GCM" 3
        (scales.getD i 0 / 4) false).2 :=
  ⟨cim_cell B W f scales 6 i j z hi hj, cim_cell B W f scales 7 i j z hi hj⟩

/-- Witness for the amended claim C3 at a concrete one-scale grid. -/
theorem claim_C3_amended_floor_smoothing_witness :
    (0 : ℕ) < ([7] : List ℕ).length ∧
    ((((compute_information_measures B0 W0 f0 [7]).2).get 6).entry 0 0 0 =
      (compute_causality B0 ((W0 f0.data (([7] : List ℕ).getD 0 0)).1)
        (np_square (W0 f0.data (([7] : List ℕ).getD 0 0)).2) 7 "GCM" 3
        (([7] : List ℕ).getD 0 0 / 4) false).1 ∧
    (((compute_information_measures B0 W0 f0 [7]).2).get 7).entry 0 0 0 =
      (compute_causality B0 ((W0 f0.data (([7] : List ℕ).getD 0 0)).1)
        (np_square (W0 f0.data (([7] : List ℕ).getD 0 0)).2) 7 "GCM" 3
        (([7] : List ℕ).getD 0 0 / 4) false).2) :=
  ⟨by norm_num,
    claim_C3_amended_floor_smoothing B0 W0 f0 [7] 0 0 0 (by norm_num) (by norm_num)⟩

/-- COUNTEREXAMPLE to claim C3 as stated: at scale 7 the code passes
smoothing floor(7/4) = 1, while the claimed round(7/4) = 2 gives a different
result for a backend whose conditional information reveals the smoothing
parameter. -/
theorem compute_causality_BEta_eqq (t1 t2 : Sig) (alg : String)
    (dim eta : ℕ) (pd : Bool) :
    (compute_causality BEta t1 t2 7 alg dim eta pd).1 = some ((eta : ℚ)) := by
  have hmap : (List.range' 1 (7 - 1)).map
      (lag_value_eqq BEta t1 t2 alg dim eta pd) =
      List.replicate 6 ((eta : ℚ)) := rfl
  show np_mean ((List.range' 1 (7 - 1)).map
    (lag_value_eqq BEta t1 t2 alg dim eta pd)) = some ((eta : ℚ))
  rw [hmap]
  rw [np_mean_ne_nil _ (by simp)]
  simp only [List.sum_replicate, List.length_replicate, nsmul_eq_mul,
    Nat.cast_ofNat, Option.some_inj]
  rw [mul_div_assoc, mul_comm]
  norm_num

theorem claim_C3_counterexample :
    round_div4 7 = 2 ∧ (7 : ℕ) / 4 = 1 ∧
    ¬ ((((compute_information_measures BEta W0 f0 [7]).2).get 6).entry 0 0 0 =
      (compute_causality BEta ((W0 f0.data 7).1)
        (np_square (W0 f0.data 7).2) 7 "GCM" 3 (round_div4 7) false).1) := by
  have hround : round_div4 7 = 2 := by
    rw [round_div4, round_eq]
    norm_num
    decide
  refine ⟨hround, by norm_num, ?_⟩
  have hcell := cim_cell BEta W0 f0 [7] 6 0 0 0 (by norm_num) (by norm_num)
  rw [hcell, hround]
  show ¬ ((compute_causality BEta ((W0 f0.data 7).1)
      (np_square (W0 f0.data 7).2) 7 "GCM" 3 1 false).1 =
    (compute_causality BEta ((W0 f0.data 7).1)
      (np_square (W0 f0.data 7).2) 7 "GCM" 3 2 false).1)
  rw [compute_causality_BEta_eqq, compute_causality_BEta_eqq]
  norm_num

/-- CLAIM C9 (amended): a run of the grid engine leaves the data and time
arrays of the field unchanged; its phase and amplitude attributes, however,
are overwritten by the wavelet calls. -/
theorem claim_C9_amended_data_preserved (B : Backend) (W : Wavelet)
    (f : DataField) (scales : List ℕ) :
    (compute_information_measures B W f scales).1.data = f.data ∧
    (compute_information_measures B W f scales).1.time = f.time :=
  outer_loop_field B W scales scales.enum (f, init_mats scales.length)

/-- COUNTEREXAMPLE to claim C9 as stated: the field handed in is NOT
unchanged when the call returns, because the wavelet calls overwrite its
phase attribute. -/
theorem claim_C9_counterexample :
    ¬ ((compute_information_measures B0 W0 f0 [5]).1.phase = f0.phase) := by
  decide

/-- The well-formedness property that the constructor assertions of
ResultsContainer encode, written out as the claim states it: a sequence of
exactly 4 entries, each a mapping with exactly 2 keys, every value an
array. -/
def well_formed_bundle (r : PyObj) : Prop :=
  ∃ l, r = PyObj.pyList l ∧ l.length = 4 ∧
    ∀ d ∈ l, ∃ es, d = PyObj.pyDict es ∧ es.length = 2 ∧
      ∀ kv ∈ es, ∃ a, kv.2 = PyObj.pyArr a

theorem valid_measure_dict_iff (d : PyObj) :
    valid_measure_dict d = true ↔
      ∃ es, d = PyObj.pyDict es ∧ es.length = 2 ∧
        ∀ kv ∈ es, ∃ a, kv.2 = PyObj.pyArr a := by
  cases d with
  | pyDict es =>
    simp only [valid_measure_dict, Bool.and_eq_true, beq_iff_eq,
      List.all_eq_true]
    constructor
    · rintro ⟨h2, hall⟩
      refine ⟨es, rfl, h2, ?_⟩
      intro kv hkv
      have := hall kv hkv
      cases hv : kv.2 with
      | pyArr a => exact ⟨a, rfl⟩
      | pyList l => rw [hv] at this; simp [is_np_array] at this
      | pyDict l => rw [hv] at this; simp [is_np_array] at this
      | pyInt n => rw [hv] at this; simp [is_np_array] at this
      | pyNone => rw [hv] at this; simp [is_np_array] at this
    · rintro ⟨es2, he, h2, hall⟩
      cases he
      refine ⟨h2, ?_⟩
      intro kv hkv
      obtain ⟨a, ha⟩ := hall kv hkv
      rw [ha]
      rfl
  | pyList l => simp [valid_measure_dict]
  | pyArr a => simp [valid_measure_dict]
  | pyInt n => simp [valid_measure_dict]
  | pyNone => simp [valid_measure_dict]

theorem validate_single_result_iff (r : PyObj) :
    validate_single_result r = true ↔ well_formed_bundle r := by
  cases r with
  | pyList l =>
    simp only [validate_single_result, Bool.and_eq_true, beq_iff_eq,
      List.all_eq_true, well_formed_bundle]
    constructor
    · rintro ⟨h4, hall⟩
      refine ⟨l, rfl, h4, ?_⟩
      intro d hd
      exact (valid_measure_dict_iff d).mp (hall d hd)
    · rintro ⟨l2, he, h4, hall⟩
      cases he
      refine ⟨h4, ?_⟩
      intro d hd
      exact (valid_measure_dict_iff d).mpr (hall d hd)
  | pyDict es => simp [validate_single_result, well_formed_bundle]
  | pyArr a => simp [validate_single_result, well_formed_bundle]
  | pyInt n => simp [validate_single_result, well_formed_bundle]
  | pyNone => simp [validate_single_result, well_formed_bundle]

/-- CLAIM C6: ResultsContainer construction fails (the assertion chain
raises, modelled as none) for a non-ensemble input exactly when it is not a
sequence of exactly 4 entries each being a mapping with exactly 2 keys and
array values; in ensemble mode the same validation is applied to every
element and construction fails exactly when some element violates it.  On
failure no container value exists, so nothing can be saved or persisted. -/
theorem claim_C6_validation (r : PyObj) (l : List PyObj) :
    (ResultsContainer_init r false = none ↔ ¬ well_formed_bundle r) ∧
    (ResultsContainer_init (PyObj.pyList l) true = none ↔
      ∃ b ∈ l, ¬ well_formed_bundle b) := by
  have hinit1 : ResultsContainer_init r false =
      (if validate_single_result r = true then some ⟨r, false⟩ else none) := rfl
  have hinit2 : ResultsContainer_init (PyObj.pyList l) true =
      (if l.all validate_single_result = true then some ⟨PyObj.pyList l, true⟩
       else none) := rfl
  constructor
  · rw [hinit1]
    by_cases h : validate_single_result r = true
    · rw [if_pos h]
      have hw := (validate_single_result_iff r).mp h
      constructor
      · intro hc
        exact absurd hc (Option.some_ne_none _)
      · intro hn
        exact absurd hw hn
    · rw [if_neg h]
      have hnw : ¬ well_formed_bundle r :=
        fun hw => h ((validate_single_result_iff r).mpr hw)
      exact iff_of_true rfl hnw
  · rw [hinit2]
    by_cases h : l.all validate_single_result = true
    · rw [if_pos h]
      rw [List.all_eq_true] at h
      constructor
      · intro hc
        exact absurd hc (Option.some_ne_none _)
      · rintro ⟨b, hb, hnw⟩
        exact absurd ((validate_single_result_iff b).mp (h b hb)) hnw
    · rw [if_neg h]
      rw [List.all_eq_true] at h
      push_neg at h
      obtain ⟨b, hb, hnv⟩ := h
      refine iff_of_true rfl ⟨b, hb, fun hw => hnv ?_⟩
      exact (validate_single_result_iff b).mpr hw

/-- CLAIM C10: construction never inspects array shapes: any bundle of 4
dicts with 2 distinct keys mapping to arrays passes validation whatever the
array shapes are (non-square, empty or mutually inconsistent), and any
ensemble of two such bundles with unrelated shapes is accepted. -/
theorem claim_C10_shape_blind (k1 k2 : String) (a b : Fin 4 → Fin 2 → Arr3)
    (_hk : k1 ≠ k2) :
    validate_single_result (mk_bundle_keys k1 k2 a) = true ∧
    (ResultsContainer_init
      (PyObj.pyList [mk_bundle_keys k1 k2 a, mk_bundle_keys k1 k2 b])
      true).isSome = true := by
  have hv : ∀ (c : Fin 4 → Fin 2 → Arr3),
      validate_single_result (mk_bundle_keys k1 k2 c) = true := by
    intro c
    simp [mk_bundle_keys, validate_single_result, valid_measure_dict,
      is_np_array]
  refine ⟨hv a, ?_⟩
  simp [ResultsContainer_init, hv a, hv b]

/-- Witness for claim C10: a bundle whose arrays are empty, non-square and
mutually inconsistent (0 by 3, 2 by 5, 1 by 1, 7 by 2) passes validation,
and an ensemble mixing it with a differently-shaped bundle is accepted. -/
theorem claim_C10_shape_blind_witness :
    validate_single_result (mk_bundle_keys "eqq" "knn"
      (fun m e => test_arr ((m : ℕ) * 2) ((e : ℕ) + 3))) = true ∧
    (ResultsContainer_init
      (PyObj.pyList [mk_bundle_keys "eqq" "knn"
          (fun m e => test_arr ((m : ℕ) * 2) ((e : ℕ) + 3)),
        mk_bundle_keys "eqq" "knn" (fun _ _ => test_arr 0 7)])
      true).isSome = true :=
  claim_C10_shape_blind "eqq" "knn"
    (fun m e => test_arr ((m : ℕ) * 2) ((e : ℕ) + 3))
    (fun _ _ => test_arr 0 7) (by decide)

theorem lookup_cons_str (y j : String) (s : Arr3) (l : List (String × Arr3)) :
    List.lookup y ((j, s) :: l) = if y = j then some s else List.lookup y l := by
  rw [List.lookup_cons]
  by_cases h : y = j
  · have hb : (y == j) = true := beq_iff_eq.mpr h
    rw [hb]
    simp [h]
  · have hb : (y == j) = false := beq_eq_false_iff_ne.mpr h
    rw [hb]
    simp [h]

theorem lookup_stack_into (d : List (String × Arr3)) (k k' : String) (v : Arr3) :
    (stack_into d k v).lookup k' =
      if k' = k then some (optStack (d.lookup k') v) else d.lookup k' := by
  induction d with
  | nil =>
    by_cases h : k' = k
    · simp [stack_into, lookup_cons_str, h, optStack]
    · simp [stack_into, lookup_cons_str, h]
  | cons p rest ih =>
    obtain ⟨k0, v0⟩ := p
    by_cases h0 : k0 = k
    · subst h0
      rw [show stack_into ((k0, v0) :: rest) k0 v =
          (k0, np_dstack2 v0 v) :: rest from by simp [stack_into]]
      rw [lookup_cons_str, lookup_cons_str]
      by_cases h' : k' = k0
      · simp [h', optStack]
      · simp [h']
    · rw [show stack_into ((k0, v0) :: rest) k v =
          (k0, v0) :: stack_into rest k v from by simp [stack_into, h0]]
      rw [lookup_cons_str, lookup_cons_str]
      by_cases h' : k' = k0
      · have hne : k' ≠ k := by
          rw [h']
          exact h0
        simp [h', hne, h0]
      · simp [h', ih]

theorem save_bundle_stack_lookup (d : List (String × Arr3))
    (ar : Fin 4 → Fin 2 → Arr3) (m : Fin 4) (e : Fin 2) :
    (save_bundle_stack d (mk_bundle ar)).lookup (full_key m e) =
      some (optStack (d.lookup (full_key m e)) (ar m e)) := by
  fin_cases m <;> fin_cases e <;>
    simp [save_bundle_stack, mk_bundle, mk_bundle_keys, RESULT_ORDER,
      full_key, estimator_key, List.zip, List.zipWith, lookup_stack_into]

theorem ensemble_fold_lookup (ar : ℕ → Fin 4 → Fin 2 → Arr3) (m : Fin 4)
    (e : Fin 2) (l : List ℕ) :
    ∀ (d : List (String × Arr3)),
    ((l.foldl (fun acc k => save_bundle_stack acc (mk_bundle (ar k))) d).lookup
        (full_key m e)) =
      l.foldl (fun o k => some (optStack o (ar k m e)))
        (d.lookup (full_key m e)) := by
  induction l with
  | nil => intro d; rfl
  | cons k0 rest ih =>
    intro d
    rw [List.foldl_cons, List.foldl_cons, ih, save_bundle_stack_lookup]

theorem range_fold_optStack (f : ℕ → Arr3) (N : ℕ) (hN : 1 ≤ N) :
    (List.range N).foldl (fun o k => some (optStack o (f k))) none =
      some (stacked f (N - 1)) := by
  induction N with
  | zero => exact absurd hN (by norm_num)
  | succ n ih =>
    rcases Nat.eq_zero_or_pos n with h0 | hp
    · subst h0
      simp [List.range_succ, stacked, optStack]
    · rw [List.range_succ, List.foldl_append, ih hp]
      obtain ⟨p, rfl⟩ : ∃ p, n = p + 1 := ⟨n - 1, by omega⟩
      simp only [List.foldl_cons, List.foldl_nil, optStack,
        Nat.add_sub_cancel]
      rfl

theorem stacked_d3 (f : ℕ → Arr3) (hf : ∀ k, (f k).d3 = 1) :
    ∀ n, (stacked f n).d3 = n + 1 := by
  intro n
  induction n with
  | zero => exact hf 0
  | succ p ih =>
    show (np_dstack2 (stacked f p) (f (p + 1))).d3 = p + 1 + 1
    rw [show (np_dstack2 (stacked f p) (f (p + 1))).d3 =
      (stacked f p).d3 + (f (p + 1)).d3 from rfl, ih, hf (p + 1)]

theorem stacked_dims (f : ℕ → Arr3) (S : ℕ)
    (hf : ∀ k, (f k).d1 = S ∧ (f k).d2 = S ∧ (f k).d3 = 1) :
    ∀ n, (stacked f n).d1 = S ∧ (stacked f n).d2 = S ∧
      (1 ≤ n → (stacked f n).isTwoD = false) := by
  intro n
  induction n with
  | zero => exact ⟨(hf 0).1, (hf 0).2.1, by omega⟩
  | succ p ih =>
    refine ⟨?_, ?_, fun _ => rfl⟩
    · show (stacked f p).d1 = S
      exact ih.1
    · show (stacked f p).d2 = S
      exact ih.2.1

theorem stacked_entry (f : ℕ → Arr3) (hf : ∀ k, (f k).d3 = 1) :
    ∀ n i j k, k ≤ n → (stacked f n).entry i j k = (f k).entry i j 0 := by
  intro n
  induction n with
  | zero =>
    intro i j k hk
    interval_cases k
    rfl
  | succ p ih =>
    intro i j k hk
    show (np_dstack2 (stacked f p) (f (p + 1))).entry i j k = (f k).entry i j 0
    rw [show (np_dstack2 (stacked f p) (f (p + 1))).entry i j k =
      if k < (stacked f p).d3 then (stacked f p).entry i j k
      else (f (p + 1)).entry i j (k - (stacked f p).d3) from rfl]
    rw [stacked_d3 f hf p]
    by_cases hkp : k < p + 1
    · rw [if_pos hkp]
      exact ih i j k (by omega)
    · rw [if_neg hkp]
      have hk1 : k = p + 1 := by omega
      subst hk1
      rw [Nat.sub_self]

/-- CLAIM C7 (amended): for an ensemble of N validated bundles with arrays
of shape (S, S), and N at least 2, save produces for each of the 8 keys one
stacked array of shape (S, S, N) whose slice [:, :, k] equals the array of
bundle k, in collection order; for N = 1 the saved value is the single
2-D array itself (shape (S, S), no trailing axis), which is what forces
the N-at-least-2 restriction. -/
theorem claim_C7_amended_stacking (S N : ℕ) (ar : ℕ → Fin 4 → Fin 2 → Arr3)
    (hN : 2 ≤ N)
    (hdim : ∀ k m e, (ar k m e).d1 = S ∧ (ar k m e).d2 = S ∧ (ar k m e).d3 = 1)
    (m : Fin 4) (e : Fin 2) :
    ∃ A, (ResultsContainer_save
        ⟨PyObj.pyList ((List.range N).map (fun k => mk_bundle (ar k))),
         true⟩).lookup (full_key m e) = some A ∧
      A.shape = [S, S, N] ∧
      ∀ i j k, k < N → A.entry i j k = (ar k m e).entry i j 0 := by
  have hsave : ResultsContainer_save
      ⟨PyObj.pyList ((List.range N).map (fun k => mk_bundle (ar k))), true⟩ =
      ((List.range N).map (fun k => mk_bundle (ar k))).foldl
        save_bundle_stack [] := rfl
  have hfold : ((List.range N).map (fun k => mk_bundle (ar k))).foldl
      save_bundle_stack [] =
      (List.range N).foldl
        (fun acc k => save_bundle_stack acc (mk_bundle (ar k))) [] :=
    List.foldl_map _ _ _ _
  have hf3 : ∀ k, (ar k m e).d3 = 1 := fun k => (hdim k m e).2.2
  have hfS : ∀ k, (ar k m e).d1 = S ∧ (ar k m e).d2 = S ∧ (ar k m e).d3 = 1 :=
    fun k => hdim k m e
  refine ⟨stacked (fun k => ar k m e) (N - 1), ?_, ?_, ?_⟩
  · rw [hsave, hfold, ensemble_fold_lookup]
    rw [List.lookup_nil]
    exact range_fold_optStack (fun k => ar k m e) N (by omega)
  · obtain ⟨hd1, hd2, htwo⟩ := stacked_dims (fun k => ar k m e) S hfS (N - 1)
    have hd3 := stacked_d3 (fun k => ar k m e) hf3 (N - 1)
    have hN1 : N - 1 + 1 = N := by omega
    rw [Arr3.shape, htwo (by omega)]
    simp only [Bool.false_eq_true, if_false]
    rw [hd1, hd2, hd3, hN1]
  · intro i j k hk
    exact stacked_entry (fun k => ar k m e) hf3 (N - 1) i j k (by omega)

/-- Witness for the amended claim C7 at S = 1, N = 2: the stacked array for
the phase-phase coherence eqq key has shape (1, 1, 2). -/
theorem claim_C7_amended_stacking_witness :
    ((ResultsContainer_save
        ⟨PyObj.pyList ((List.range 2).map
          (fun _ => mk_bundle (fun _ _ => test_arr 1 1))), true⟩).lookup
      (full_key 0 0)).map Arr3.shape = some [1, 1, 2] := by
  obtain ⟨A, hA, hs, _⟩ := claim_C7_amended_stacking 1 2
    (fun _ _ _ => test_arr 1 1) (by norm_num)
    (fun _ _ _ => ⟨rfl, rfl, rfl⟩) 0 0
  rw [hA]
  simp [hs]

/-- COUNTEREXAMPLE to claim C7 as stated: an ensemble of N = 1 bundle with a
(1, 1) array yields a saved array of shape (1, 1), not (1, 1, 1): the code
only dstacks from the second bundle onward, so no trailing axis is added. -/
theorem claim_C7_counterexample :
    ((ResultsContainer_save
        ⟨PyObj.pyList [mk_bundle (fun _ _ => test_arr 1 1)], true⟩).lookup
      (full_key 0 0)).map Arr3.shape = some [1, 1] ∧
    some [1, 1] ≠ some ([1, 1, 1] : List ℕ) := by
  constructor
  · rw [show ResultsContainer_save
        ⟨PyObj.pyList [mk_bundle (fun _ _ => test_arr 1 1)], true⟩ =
        save_bundle_stack [] (mk_bundle (fun _ _ => test_arr 1 1)) from rfl]
    rw [save_bundle_stack_lookup, List.lookup_nil]
    rfl
  · simp

theorem foldl_put (t : QToken) (l : List ℕ) (q0 : List QToken) :
    l.foldl (fun q _ => put_token q t) q0 = q0 ++ List.replicate l.length t := by
  induction l generalizing q0 with
  | nil => simp
  | cons a rest ih =>
    rw [List.foldl_cons, ih]
    simp [put_token, List.replicate_succ]

theorem load_queue_eq (N Wn : ℕ) :
    load_queue N Wn =
      List.replicate N QToken.job ++ List.replicate Wn QToken.pill := by
  rw [load_queue, foldl_put, foldl_put]
  simp [List.length_range]

theorem num_active_init (N Wn : ℕ) :
    num_active (init_state N Wn : PoolState Wn) = Wn := by
  rw [num_active, init_state]
  simp

theorem num_active_update_false {Wn : ℕ} (f : Fin Wn → Bool) (w : Fin Wn)
    (hw : f w = true) :
    (Finset.univ.filter (fun x => Function.update f w false x = true)).card =
      (Finset.univ.filter (fun x => f x = true)).card - 1 := by
  have hset : Finset.univ.filter (fun x => Function.update f w false x = true) =
      (Finset.univ.filter (fun x => f x = true)).erase w := by
    ext x
    by_cases hx : x = w
    · subst hx
      simp [Function.update_same]
    · simp [Function.update_noteq hx, hx]
  rw [hset, Finset.card_erase_of_mem]
  simp [hw]

theorem replicate_head_job (j k : ℕ) (rest : List QToken)
    (h : List.replicate j QToken.job ++ List.replicate k QToken.pill =
      QToken.job :: rest) :
    ∃ j', j = j' + 1 ∧
      rest = List.replicate j' QToken.job ++ List.replicate k QToken.pill := by
  cases j with
  | zero =>
    simp only [List.replicate, List.nil_append] at h
    cases k with
    | zero => simp at h
    | succ k' =>
      rw [List.replicate_succ] at h
      simp at h
  | succ j' =>
    rw [List.replicate_succ, List.cons_append] at h
    refine ⟨j', rfl, ?_⟩
    simpa using h.symm

theorem replicate_head_pill (j k : ℕ) (rest : List QToken)
    (h : List.replicate j QToken.job ++ List.replicate k QToken.pill =
      QToken.pill :: rest) :
    j = 0 ∧ ∃ k', k = k' + 1 ∧ rest = List.replicate k' QToken.pill := by
  cases j with
  | succ j' =>
    rw [List.replicate_succ, List.cons_append] at h
    simp at h
  | zero =>
    simp only [List.replicate, List.nil_append] at h
    cases k with
    | zero => simp at h
    | succ k' =>
      rw [List.replicate_succ] at h
      refine ⟨rfl, k', rfl, ?_⟩
      simpa using h.symm

theorem pool_inv_init (N Wn : ℕ) : PoolInv N Wn (init_state N Wn) := by
  refine ⟨N, ?_, by simp [init_state], Or.inr (num_active_init N Wn)⟩
  show load_queue N Wn = List.replicate N QToken.job ++
    List.replicate (num_active (init_state N Wn : PoolState Wn)) QToken.pill
  rw [num_active_init, load_queue_eq]

theorem pool_inv_step {Wn : ℕ} (N : ℕ) (s t : PoolState Wn)
    (hs : PoolInv N Wn s) (hstep : PoolStep s t) : PoolInv N Wn t := by
  obtain ⟨j, hq, hres, hdisj⟩ := hs
  cases hstep with
  | job w rest hw hhead =>
    rw [hq] at hhead
    obtain ⟨j', rfl, hrest⟩ := replicate_head_job j (num_active s) rest hhead
    have hact : num_active (⟨rest, s.active, s.resq + 1⟩ : PoolState Wn) =
        num_active s := rfl
    refine ⟨j', ?_, by show s.resq + 1 + j' = N; omega, ?_⟩
    · show rest = List.replicate j' QToken.job ++
        List.replicate (num_active (⟨rest, s.active, s.resq + 1⟩ : PoolState Wn))
          QToken.pill
      rw [hact]
      exact hrest
    · rcases hdisj with h0 | hW
      · exact absurd h0 (Nat.succ_ne_zero j')
      · exact Or.inr (hact.trans hW)
  | pill w rest hw hhead =>
    rw [hq] at hhead
    obtain ⟨hj0, k', hk, hrest⟩ := replicate_head_pill j (num_active s) rest hhead
    have hact : num_active
        (⟨rest, Function.update s.active w false, s.resq⟩ : PoolState Wn) = k' := by
      show (Finset.univ.filter
        (fun x => Function.update s.active w false x = true)).card = k'
      rw [num_active_update_false s.active w hw]
      have : (Finset.univ.filter (fun x => s.active x = true)).card =
          num_active s := rfl
      omega
    refine ⟨0, ?_, by show s.resq + 0 = N; omega, Or.inl rfl⟩
    show rest = List.replicate 0 QToken.job ++
      List.replicate (num_active
        (⟨rest, Function.update s.active w false, s.resq⟩ : PoolState Wn))
        QToken.pill
    rw [hact]
    simpa using hrest

theorem pool_inv_reachable {Wn : ℕ} (N : ℕ) (s : PoolState Wn)
    (h : PoolReachable (init_state N Wn) s) : PoolInv N Wn s := by
  induction h with
  | refl => exact pool_inv_init N Wn
  | tail hsteps hstep ih => exact pool_inv_step N _ _ ih hstep

/-- CLAIM C5 (amended): with at least one worker, the coordinator pre-loads
exactly N job tokens followed by W pills; in every reachable state in which
all workers have terminated, exactly N results were produced and the queue
is empty (this also covers N = 0, where each worker consumes one pill and 0
results are produced); and in every reachable state with a live worker, a
scheduling step is possible that strictly shrinks the queue, so every
maximal schedule terminates in finitely many steps. -/
theorem claim_C5_amended_pool (N Wn : ℕ) (hW : 1 ≤ Wn) (s : PoolState Wn)
    (hr : PoolReachable (init_state N Wn) s) :
    (init_state N Wn : PoolState Wn).jobq =
      List.replicate N QToken.job ++ List.replicate Wn QToken.pill ∧
    ((∀ w, s.active w = false) → s.resq = N ∧ s.jobq = []) ∧
    ((∃ w, s.active w = true) →
      ∃ t, PoolStep s t ∧ t.jobq.length < s.jobq.length) := by
  obtain ⟨j, hq, hres, hdisj⟩ := pool_inv_reachable N s hr
  refine ⟨by rw [init_state]; exact load_queue_eq N Wn, ?_, ?_⟩
  · intro hall
    have hk : num_active s = 0 := by
      rw [num_active]
      simp [hall]
    have hj0 : j = 0 := by
      rcases hdisj with h | h
      · exact h
      · rw [hk] at h
        omega
    subst hj0
    refine ⟨by omega, ?_⟩
    rw [hq, hk]
    simp
  · rintro ⟨w, hw⟩
    have hk : 1 ≤ num_active s := by
      have hmem : w ∈ Finset.univ.filter (fun x => s.active x = true) := by
        simp [hw]
      exact Finset.card_pos.mpr ⟨w, hmem⟩
    cases j with
    | zero =>
      obtain ⟨k', hk'⟩ : ∃ k', num_active s = k' + 1 :=
        ⟨num_active s - 1, by omega⟩
      have hhead : s.jobq = QToken.pill :: List.replicate k' QToken.pill := by
        rw [hq, hk']
        simp [List.replicate_succ]
      exact ⟨_, PoolStep.pill s w _ hw hhead,
        by rw [hhead]; exact Nat.lt_succ_self _⟩
    | succ j' =>
      have hhead : s.jobq = QToken.job :: (List.replicate j' QToken.job ++
          List.replicate (num_active s) QToken.pill) := by
        rw [hq]
        simp [List.replicate_succ]
      exact ⟨_, PoolStep.job s w _ hw hhead,
        by rw [hhead]; exact Nat.lt_succ_self _⟩

/-- Witness for the amended claim C5: the pre-loaded queue for N = 2 jobs
and one worker is two job tokens followed by one pill. -/
theorem claim_C5_amended_pool_witness :
    (init_state 2 1 : PoolState 1).jobq =
      List.replicate 2 QToken.job ++ List.replicate 1 QToken.pill :=
  (claim_C5_amended_pool 2 1 (by norm_num) (init_state 2 1)
    Relation.ReflTransGen.refl).1

/-- COUNTEREXAMPLE to claim C5 as stated: with worker count W = 0 and N = 1
the initial state is reachable, all (zero) workers have terminated, yet the
coordinator has collected 0 results, not N = 1 - the exactly-N-results
guarantee needs at least one worker. -/
theorem claim_C5_counterexample :
    PoolReachable (init_state 1 0) (init_state 1 0) ∧
    (∀ w : Fin 0, (init_state 1 0 : PoolState 0).active w = false) ∧
    (init_state 1 0 : PoolState 0).resq ≠ 1 :=
  ⟨Relation.ReflTransGen.refl, fun w => w.elim0, by decide⟩
